import Mathlib

/-!
Shallow embedding of the analytics aggregation, change-notification and
insight-caching subsystem of the review backend
(`backend/app/services/analytics.py`, `backend/app/services/insights.py`,
`backend/app/services/database.py`).

The Mongo record store is modelled as a Lean list of `Review` records; the
Mongo query/aggregation operators used by the code (`count_documents`,
`$match`, `$group`, `$sort`, `$avg`, `$round`, `find().sort().limit()`) are
given their documented semantics over that list.  `$group` output order is
unspecified by Mongo; it is determinised here as order of first appearance
in the store, and `$sort` as a stable sort, so that every definition is
executable.  Python floats are modelled as rationals; `round(x, 2)` is
modelled by `round2`.  Timestamps are naturals, their ISO rendering is the
decimal string with a trailing Z marker, mirroring `isoformat() + "Z"`.
-/

namespace ReviewBackend

/-- A Python value as it occurs in review fields and filter dictionaries:
`None`, a string, or an integer. -/
inductive PyVal where
  | none
  | str (s : String)
  | int (n : Int)
  deriving DecidableEq, Repr

/-- Python truthiness of a `PyVal`: `None`, the empty string and `0` are
falsy, everything else is truthy. -/
def PyVal.truthy : PyVal → Bool
  | .none => false
  | .str s => !(s == "")
  | .int n => !(n == 0)

/-- Python `str()` applied to a `PyVal`. -/
def PyVal.pyStr : PyVal → String
  | .none => "None"
  | .str s => s
  | .int n => toString n

/-- A stored review document.  `website`, `product` and `classification`
are `PyVal`s so that missing (`None`), empty-string and integer field
values can be represented, as they can in a Mongo document. -/
structure Review where
  id : Nat
  rating : Int
  feedback : String
  website : PyVal
  product : PyVal
  classification : PyVal
  created_at : Nat
  deriving DecidableEq, Repr

/-- Field lookup on a review document, as a Mongo query or `$group` key
would see it: a missing field reads as `None`. -/
def Review.getField (r : Review) : String → PyVal
  | "website" => r.website
  | "product" => r.product
  | "classification" => r.classification
  | "rating" => .int r.rating
  | _ => .none

/-- A filter dictionary: an association list of keys to `PyVal`s, standing
for the Python `Dict[str, Any]` passed to the services (dictionaries have
no duplicate keys; the embedding uses first-match lookup). -/
abbrev Filter := List (String × PyVal)

/-- `analytics._build_match`: keep only the truthy constraints of the
optional filter dictionary (`{k: v for k, v in filters.items() if v}`);
`None` yields the empty match. -/
def _build_match (filters : Option Filter) : Filter :=
  match filters with
  | some fs => fs.filter (fun kv => kv.2.truthy)
  | Option.none => []

/-- Mongo equality-match of one document against a query dictionary: every
constraint key must equal the document's field value. -/
def matchesQuery (r : Review) (q : Filter) : Bool :=
  q.all (fun kv => r.getField kv.1 == kv.2)

/-- The records of the store matching the query built from a filter. -/
def matchingRecords (store : List Review) (filters : Option Filter) : List Review :=
  store.filter (fun r => matchesQuery r (_build_match filters))

/-- Python `round(x, 2)` on the rational model of a float. -/
def round2 (x : ℚ) : ℚ := (round (x * 100) : ℤ) / 100

/-- Sum of the ratings of a list of records. -/
def sumRatings (recs : List Review) : Int :=
  recs.foldl (fun acc r => acc + r.rating) 0

/-- Mongo `$avg` of the ratings of a (nonempty) group; 0 on the empty
list. -/
def avgRating (recs : List Review) : ℚ :=
  if recs.length = 0 then 0 else (sumRatings recs : ℚ) / (recs.length : ℚ)

/-- The distinct values of a field over a record list, in order of first
appearance: the determinisation of Mongo `$group` output order. -/
def distinctVals (recs : List Review) (f : Review → PyVal) : List PyVal :=
  recs.foldl (fun acc r => if acc.contains (f r) then acc else acc ++ [f r]) []

/-- One output document of a Mongo `$group` stage: the group `_id`, the
`$sum: 1` count and the `$avg` of ratings. -/
structure GroupDoc where
  gid : PyVal
  count : Nat
  avg : ℚ
  deriving DecidableEq, Repr

/-- Mongo `{$group: {_id: "$field", count: {$sum: 1}, avg_rating: {$avg:
"$rating"}}}` over a record list. -/
def groupBy (recs : List Review) (f : Review → PyVal) : List GroupDoc :=
  (distinctVals recs f).map (fun v =>
    let grp := recs.filter (fun r => f r == v)
    { gid := v, count := grp.length, avg := avgRating grp })

/-- One entry of a website/product breakdown after the `$project` stage:
grouping key, count and rounded average rating. -/
structure BreakdownEntry where
  key : PyVal
  count : Nat
  avg_rating : ℚ
  deriving DecidableEq, Repr

/-- Insert into a list sorted by descending count, placing ties after
existing entries (stable). -/
def insertByCountDesc (e : BreakdownEntry) : List BreakdownEntry → List BreakdownEntry
  | [] => [e]
  | x :: xs => if x.count < e.count then e :: x :: xs else x :: insertByCountDesc e xs

/-- Mongo `{$sort: {count: -1}}`, determinised as a stable sort by
descending count. -/
def sortByCountDesc (l : List BreakdownEntry) : List BreakdownEntry :=
  l.foldl (fun acc e => insertByCountDesc e acc) []

/-- The `$group`/`$project`/`$sort` pipeline computing one breakdown. -/
def mkBreakdown (recs : List Review) (f : Review → PyVal) : List BreakdownEntry :=
  sortByCountDesc ((groupBy recs f).map
    (fun g => { key := g.gid, count := g.count, avg_rating := round2 g.avg }))

/-- `analytics._CLASSIFICATION_KEYS`. -/
def _CLASSIFICATION_KEYS : List String :=
  ["product_issue", "delivery_issue", "sarcasm", "genuine", "other"]

/-- The classification-counts dictionary, keyed by `PyVal` because the raw
group `_id` (which may be a non-string) is used as the key when truthy. -/
abbrev CountsDict := List (PyVal × Nat)

/-- Python dictionary assignment `d[k] = v`: replace the entry if the key
is present, append it otherwise. -/
def dictSet : CountsDict → PyVal → Nat → CountsDict
  | [], k, v => [(k, v)]
  | kv :: rest, k, v => if kv.1 == k then (k, v) :: rest else kv :: dictSet rest k v

/-- `{k: 0 for k in _CLASSIFICATION_KEYS}`. -/
def initCounts : CountsDict := _CLASSIFICATION_KEYS.map (fun k => (PyVal.str k, 0))

/-- `item.get("_id") or "other"`: a falsy group id folds into `"other"`. -/
def classificationKey (gid : PyVal) : PyVal :=
  if gid.truthy then gid else .str "other"

/-- The body of the `for item in class_docs` loop: ensure the key exists,
then assign (not add) the group's count to it. -/
def applyClassDoc (d : CountsDict) (g : GroupDoc) : CountsDict :=
  dictSet d (classificationKey g.gid) g.count

/-- The classification-counts computation of `compute_analytics_summary`:
start from the five zero-initialised keys and process each group document
of the `$group` on `$classification`. -/
def classificationCounts (matching : List Review) : CountsDict :=
  (groupBy matching (fun r => r.classification)).foldl applyClassDoc initCounts

/-- Insert into a list sorted by descending creation time, placing ties
after existing entries (stable). -/
def insertByCreatedDesc (e : Review) : List Review → List Review
  | [] => [e]
  | x :: xs => if x.created_at < e.created_at then e :: x :: xs else x :: insertByCreatedDesc e xs

/-- `find(query).sort("created_at", -1)`, determinised as a stable sort. -/
def sortByCreatedDesc (l : List Review) : List Review :=
  l.foldl (fun acc e => insertByCreatedDesc e acc) []

/-- A review in the externally consumable form produced by
`database._normalize`: the identifier as a string and the creation
timestamp as an ISO-style string with a trailing Z. -/
structure NormalizedReview where
  id : String
  rating : Int
  feedback : String
  website : PyVal
  product : PyVal
  classification : PyVal
  created_at : String
  deriving DecidableEq, Repr

/-- `database._normalize`. -/
def _normalize (r : Review) : NormalizedReview :=
  { id := toString r.id, rating := r.rating, feedback := r.feedback,
    website := r.website, product := r.product,
    classification := r.classification,
    created_at := toString r.created_at ++ "Z" }

/-- The analytics snapshot returned by `compute_analytics_summary`. -/
structure Snapshot where
  total_reviews : Nat
  avg_rating : ℚ
  classification_counts : CountsDict
  website_breakdown : List BreakdownEntry
  product_breakdown : List BreakdownEntry
  latest_reviews : List NormalizedReview
  deriving DecidableEq, Repr

/-- `analytics.compute_analytics_summary` over the list model of the
store. -/
def compute_analytics_summary (store : List Review) (filters : Option Filter) : Snapshot :=
  let query := _build_match filters
  let matching := store.filter (fun r => matchesQuery r query)
  { total_reviews := matching.length
    avg_rating := if matching.isEmpty then 0 else round2 (avgRating matching)
    classification_counts := classificationCounts matching
    website_breakdown := mkBreakdown matching (fun r => r.website)
    product_breakdown := mkBreakdown matching (fun r => r.product)
    latest_reviews := ((sortByCreatedDesc matching).take 5).map _normalize }

/-! ### Insights service (`insights.py`) -/

/-- `insights._filter_key`: the canonical cache-key string
`str(filters.get("website", "")) + "|" + ... ` joining the three
dimension values in fixed order. -/
def dictGetD (filters : Filter) (k : String) (dflt : PyVal) : PyVal :=
  match filters.find? (fun kv => kv.1 == k) with
  | some kv => kv.2
  | Option.none => dflt

/-- `insights._filter_key`. -/
def _filter_key (filters : Filter) : String :=
  (dictGetD filters "website" (.str "")).pyStr ++ "|"
    ++ (dictGetD filters "product" (.str "")).pyStr ++ "|"
    ++ (dictGetD filters "classification" (.str "")).pyStr

/-- `insights._latest_review_ts`: the ISO string of the creation time of
the most recent record in the whole store, `None` if the store is
empty. -/
def _latest_review_ts (store : List Review) : Option String :=
  match sortByCreatedDesc store with
  | [] => Option.none
  | r :: _ => some (toString r.created_at ++ "Z")

/-- The insight payload dictionary built by `generate_insights`. -/
structure Payload where
  summary : String
  recommendations : List String
  generated_at : String
  source_last_review_at : Option String
  filters : Filter
  deriving DecidableEq, Repr

/-- `filters or {}` of `generate_insights`. -/
def orEmpty : Option Filter → Filter
  | some fs => fs
  | Option.none => []

/-- The three fixed fallback recommendations of `_ai_insights`. -/
def _GENERIC_ACTIONS : List String :=
  ["Dig into the top theme and address root causes",
   "Highlight wins from high-rated segments",
   "Track changes after fixes and monitor rating trend"]

/-- Python `max(d.items(), key=lambda x: x[1])[0]` on the counts
dictionary: the key of the first entry carrying the maximal count;
`"other"` on the empty dictionary, mirroring the `top_class` default. -/
def firstMaxKey (d : CountsDict) : PyVal :=
  match d with
  | [] => .str "other"
  | kv :: rest => (rest.foldl (fun best x => if best.2 < x.2 then x else best) kv).1

/-- The heuristic fallback narrative of `_ai_insights`, built from the
snapshot's totals, average and dominant classification and the truthy
filters.  Number and dictionary rendering is an injective
determinisation of Python string formatting. -/
def heuristicInsight (summary : Snapshot) (filtered : Filter) : String :=
  toString summary.total_reviews ++ " reviews with avg rating "
    ++ toString summary.avg_rating ++ ". Top theme: "
    ++ (firstMaxKey summary.classification_counts).pyStr ++ ". Filters: "
    ++ (if filtered.isEmpty then "none"
        else String.intercalate ", " (filtered.map (fun kv => kv.1 ++ "=" ++ kv.2.pyStr)))
    ++ "."

/-- `insights._ai_insights`.  The `oracle` argument is the outcome of the
text-generation call for this invocation: `some (insight, actions)` when
the service is configured, reachable and returns parseable JSON with
those fields, `Option.none` when there is no API key or the call or the
JSON parse raises (the `except: pass` path).  A successful response with
an empty `insight` string also falls through to the heuristic, as in the
source (`if insight: return insight, actions`). -/
def _ai_insights (oracle : Option (String × List String)) (summary : Snapshot)
    (filters : Filter) : String × List String :=
  let filtered := filters.filter (fun kv => kv.2.truthy)
  match oracle with
  | some ia =>
      if ia.1 ≠ "" then (ia.1, ia.2.take 3)
      else (heuristicInsight summary filtered, _GENERIC_ACTIONS)
  | Option.none => (heuristicInsight summary filtered, _GENERIC_ACTIONS)

/-- Python dictionary assignment on the string-keyed insight cache. -/
def dictSetStr : List (String × Payload) → String → Payload → List (String × Payload)
  | [], k, v => [(k, v)]
  | kv :: rest, k, v => if kv.1 == k then (k, v) :: rest else kv :: dictSetStr rest k v

/-- `_cache.get(key)`. -/
def cacheLookup (cache : List (String × Payload)) (key : String) : Option Payload :=
  match cache.find? (fun kv => kv.1 == key) with
  | some kv => some kv.2
  | Option.none => Option.none

/-- The mutable module state of `insights.py`: the cache, plus counters
instrumenting the recomputation path.  `oracleCalls` counts the
invocations of the insight generation step (one oracle attempt each when
configured) and `computeCalls` the snapshot recomputations, matching the
oracle-call counter the spec asks test doubles to carry. -/
structure InsightState where
  cache : List (String × Payload)
  oracleCalls : Nat
  computeCalls : Nat
  deriving DecidableEq, Repr

/-- The cache-miss/stale branch of `generate_insights`: recompute the
snapshot, invoke the insight generation (oracle attempt), build the
payload stamped with the current freshness token and store it under the
signature. -/
def generateMiss (store : List Review) (oracle : Option (String × List String))
    (now : String) (filters : Filter) (st : InsightState) (key : String)
    (latest_ts : Option String) : Payload × InsightState :=
  let summary := compute_analytics_summary store (some filters)
  let tr := _ai_insights oracle summary filters
  let payload : Payload :=
    { summary := tr.1, recommendations := tr.2, generated_at := now,
      source_last_review_at := latest_ts, filters := filters }
  (payload,
   { cache := dictSetStr st.cache key payload,
     oracleCalls := st.oracleCalls + 1,
     computeCalls := st.computeCalls + 1 })

/-- `insights.generate_insights` as a state transformer.  `oracle` is the
outcome the text-generation adapter would produce on this invocation and
`now` the current-time string (`datetime.utcnow().isoformat() + "Z"`). -/
def generate_insights (store : List Review) (oracle : Option (String × List String))
    (now : String) (filtersOpt : Option Filter) (st : InsightState) :
    Payload × InsightState :=
  let filters := orEmpty filtersOpt
  let key := _filter_key filters
  let latest_ts := _latest_review_ts store
  match cacheLookup st.cache key with
  | some p =>
      if p.source_last_review_at = latest_ts then (p, st)
      else generateMiss store oracle now filters st key latest_ts
  | Option.none => generateMiss store oracle now filters st key latest_ts

/-! ### Subscriber registry and broadcaster (`analytics.py`) -/

/-- A live subscriber handle (an opaque websocket), modelled by an
identifier. -/
abbrev WS := Nat

/-- The send loop of `broadcast_analytics_update`: walk the targets in
order, record a delivery for each handle whose send succeeds and collect
the handles whose send raises into the `dead` list. -/
def broadcastPass (sendOk : WS → Bool) (summary : Snapshot) :
    List WS → List (WS × Snapshot) × List WS
  | [] => ([], [])
  | w :: ws =>
      let rest := broadcastPass sendOk summary ws
      if sendOk w then ((w, summary) :: rest.1, rest.2)
      else (rest.1, w :: rest.2)

/-- `for ws in dead: _connections.discard(ws)`. -/
def removeAll (conns : List WS) (dead : List WS) : List WS :=
  dead.foldl (fun acc w => acc.filter (fun x => !(x == w))) conns

/-- The observable outcome of one `broadcast_analytics_update` run: the
deliveries that succeeded (in send order) and the registry afterwards. -/
structure BroadcastResult where
  delivered : List (WS × Snapshot)
  registry : List WS
  deriving DecidableEq, Repr

/-- `analytics.broadcast_analytics_update` over the list model of the
registry, for the case where the snapshot computation succeeds (in the
embedding the store is a value, so `compute_analytics_summary` is total;
the store-unavailable early return is not represented).  `sendOk` tells
whether a given handle's `send_json` succeeds. -/
def broadcast_analytics_update (store : List Review) (sendOk : WS → Bool)
    (conns : List WS) : BroadcastResult :=
  let summary := compute_analytics_summary store Option.none
  let pass := broadcastPass sendOk summary conns
  { delivered := pass.1
    registry := if pass.2.isEmpty then conns else removeAll conns pass.2 }

/-! ### Auxiliary definitions used by the statements -/

/-- Sum of the values of a counts dictionary. -/
def sumCounts (d : CountsDict) : Nat := (d.map Prod.snd).sum

/-- Strict lexicographic order on character lists. -/
def charListLt : List Char → List Char → Bool
  | [], [] => false
  | [], _ :: _ => true
  | _ :: _, [] => false
  | c :: cs, d :: ds => if c < d then true else if d < c then false else charListLt cs ds

/-- A fixed total order on grouping keys (the "natural ordering" of the
BSON values used as group keys: null before numbers before strings,
numbers by value, strings lexicographically). -/
def PyVal.le : PyVal → PyVal → Bool
  | .none, _ => true
  | .int _, .none => false
  | .int a, .int b => decide (a ≤ b)
  | .int _, .str _ => true
  | .str _, .none => false
  | .str _, .int _ => false
  | .str a, .str b => a == b || charListLt a.data b.data

/-- The ordering property asserted by the spec for breakdowns: descending
by count, ties resolved by the natural ordering of the grouping key. -/
def sortedByCountThenKey (l : List BreakdownEntry) : Prop :=
  List.Pairwise (fun x y => y.count < x.count ∨ (x.count = y.count ∧ PyVal.le x.key y.key = true)) l

/-- The ordering property the code actually guarantees: descending by
count only. -/
def sortedByCountDesc (l : List BreakdownEntry) : Prop :=
  List.Pairwise (fun x y : BreakdownEntry => y.count ≤ x.count) l

/-- The value of the three extracted filter components that
`_filter_key` concatenates. -/
def extracted (F : Filter) (k : String) : String :=
  (dictGetD F k (.str "")).pyStr

/-- A string free of the `"|"` separator used by `_filter_key`. -/
abbrev pipeFree (s : String) : Prop := ('|' : Char) ∉ s.data

/-- Oracle outcomes the spec calls failures: the call raised (or the
service is unconfigured), or the response parsed to an empty narrative. -/
def oracleFailedOrMalformed (o : Option (String × List String)) : Prop :=
  o = Option.none ∨ ∃ acts, o = some ("", acts)

/-! ### Concrete fixture records used by counterexamples and witnesses -/

/-- A review whose classification is the literal label `"other"`. -/
def rOther : Review :=
  { id := 1, rating := 5, feedback := "fine", website := .str "w", product := .str "p",
    classification := .str "other", created_at := 1 }

/-- A review whose classification is missing (`None`). -/
def rNone : Review :=
  { id := 2, rating := 3, feedback := "meh", website := .str "w", product := .str "p",
    classification := .none, created_at := 2 }

/-- A review with an unknown but truthy classification label. -/
def rSpam : Review :=
  { id := 3, rating := 4, feedback := "buy", website := .str "w", product := .str "p",
    classification := .str "spam", created_at := 3 }

/-- A review from website `"b"`, created before `ra`. -/
def rb : Review :=
  { id := 4, rating := 2, feedback := "bad", website := .str "b", product := .str "p",
    classification := .str "genuine", created_at := 1 }

/-- A review from website `"a"`, created after `rb`. -/
def ra : Review :=
  { id := 5, rating := 4, feedback := "good", website := .str "a", product := .str "p",
    classification := .str "genuine", created_at := 2 }

/-- A filter whose website value contains the `"|"` separator. -/
def fA : Filter := [("website", .str "a|b"), ("product", .str "c")]

/-- A filter with different constraints than `fA` but the same
signature. -/
def fB : Filter := [("website", .str "a"), ("product", .str "b|c")]

/-! ## Theorems -/

/-- C8: for every filter, `compute_analytics_summary` on an empty store
succeeds and returns zero total reviews, average rating 0.0, the five
classification counts all zero, empty website and product breakdowns and
an empty recent-reviews list. -/
theorem C8_empty_store (fo : Option Filter) :
    compute_analytics_summary [] fo =
      { total_reviews := 0, avg_rating := 0,
        classification_counts :=
          [(PyVal.str "product_issue", 0), (PyVal.str "delivery_issue", 0),
           (PyVal.str "sarcasm", 0), (PyVal.str "genuine", 0), (PyVal.str "other", 0)],
        website_breakdown := [], product_breakdown := [], latest_reviews := [] } := rfl

/-- C1: evaluation of `compute_analytics_summary` at the failing input for
the claim that the classification counts sum to `total_reviews`.  On a
store holding one review classified `"other"` and one with a missing
classification, the `$group` stage yields two distinct group ids that the
loop folds onto the same key `"other"`, and the assignment
`classification_counts[key] = int(item.get("count", 0))` overwrites
rather than accumulates: the counts sum to 1 while `total_reviews` is
2. -/
theorem C1_sum_mismatch_eval :
    (compute_analytics_summary [rOther, rNone] Option.none).total_reviews = 2 ∧
    sumCounts (compute_analytics_summary [rOther, rNone] Option.none).classification_counts = 1 := by
  decide

/-- C2 counterexample: on a store holding one review with the unknown but
truthy classification `"spam"`, the snapshot's `classification_counts`
does not have exactly the five known labels as its key set (a sixth key
`"spam"` appears), and the unknown label is not counted under `"other"`
(whose count stays 0). -/
theorem C2_counterexample :
    ((compute_analytics_summary [rSpam] Option.none).classification_counts.map Prod.fst
        ≠ _CLASSIFICATION_KEYS.map PyVal.str) ∧
    (compute_analytics_summary [rSpam] Option.none).classification_counts.length = 6 ∧
    (PyVal.str "other", 0)
      ∈ (compute_analytics_summary [rSpam] Option.none).classification_counts := by
  refine ⟨by decide, by decide, by decide⟩

/-- C3 counterexample: with two reviews from websites `"b"` then `"a"`
(one each, so equal counts), the website breakdown comes out in group
encounter order `["b", "a"]`; it is not ordered by the grouping key's
natural ordering on ties, refuting the claimed sort property. -/
theorem C3_counterexample :
    ¬ sortedByCountThenKey
        ((compute_analytics_summary [rb, ra] Option.none).website_breakdown) := by
  simp only [sortedByCountThenKey]
  decide

/-- C6 counterexample: when the oracle call succeeds with a nonempty
narrative but fewer than three action strings, `_ai_insights` returns the
truncated action list as is, so the payload does not always carry exactly
three recommendation strings. -/
theorem C6_counterexample :
    ((_ai_insights (some ("Looks fine", []))
        (compute_analytics_summary [] Option.none) []).2).length ≠ 3 := by
  decide

/-- C9 counterexample: two filters with different website constraints
(`"a|b"` versus `"a"`) produce the same cache signature `"a|b|c|"`,
because the separator also occurs inside values; the signature is not an
injective encoding of the constraint set. -/
theorem C9_counterexample :
    _filter_key fA = _filter_key fB ∧
    dictGetD fA "website" (PyVal.str "") ≠ dictGetD fB "website" (PyVal.str "") := by
  refine ⟨by decide, by decide⟩

/-! ### Sortedness of the breakdown pipelines -/

theorem mem_insertByCountDesc {b e : BreakdownEntry} {l : List BreakdownEntry} :
    b ∈ insertByCountDesc e l ↔ b = e ∨ b ∈ l := by
  induction l with
  | nil => simp [insertByCountDesc]
  | cons x xs ih =>
    rw [insertByCountDesc]
    by_cases hx : x.count < e.count
    · simp only [if_pos hx, List.mem_cons]
    · simp only [if_neg hx, List.mem_cons, ih]
      tauto

theorem pairwise_insertByCountDesc (e : BreakdownEntry) (l : List BreakdownEntry)
    (h : List.Pairwise (fun x y => y.count ≤ x.count) l) :
    List.Pairwise (fun x y => y.count ≤ x.count) (insertByCountDesc e l) := by
  induction l with
  | nil => simp [insertByCountDesc]
  | cons x xs ih =>
    rcases List.pairwise_cons.mp h with ⟨hx1, hxs⟩
    rw [insertByCountDesc]
    by_cases hx : x.count < e.count
    · rw [if_pos hx]
      refine List.pairwise_cons.mpr ⟨?_, h⟩
      intro b hb
      rcases List.mem_cons.mp hb with rfl | hb
      · exact Nat.le_of_lt hx
      · exact le_trans (hx1 b hb) (Nat.le_of_lt hx)
    · rw [if_neg hx]
      refine List.pairwise_cons.mpr ⟨?_, ih hxs⟩
      intro b hb
      rcases mem_insertByCountDesc.mp hb with rfl | hb
      · exact Nat.le_of_not_lt hx
      · exact hx1 b hb

theorem pairwise_foldl_insertByCountDesc (l acc : List BreakdownEntry)
    (h : List.Pairwise (fun x y => y.count ≤ x.count) acc) :
    List.Pairwise (fun x y => y.count ≤ x.count)
      (l.foldl (fun acc e => insertByCountDesc e acc) acc) := by
  induction l generalizing acc with
  | nil => exact h
  | cons e es ih => exact ih _ (pairwise_insertByCountDesc e acc h)

theorem pairwise_sortByCountDesc (l : List BreakdownEntry) :
    List.Pairwise (fun x y => y.count ≤ x.count) (sortByCountDesc l) :=
  pairwise_foldl_insertByCountDesc l [] (List.Pairwise.nil)

/-- C3 amended: each grouped breakdown of the snapshot is sorted by count
in descending (non-increasing) order; the output of the pure function is
deterministic, but entries of equal count keep the group encounter order
rather than the grouping key's natural ordering. -/
theorem C3_amended (store : List Review) (fo : Option Filter) :
    sortedByCountDesc ((compute_analytics_summary store fo).website_breakdown) ∧
    sortedByCountDesc ((compute_analytics_summary store fo).product_breakdown) :=
  ⟨pairwise_sortByCountDesc _, pairwise_sortByCountDesc _⟩

/-- C6 amended: `_ai_insights` never propagates an oracle failure (it is
total and always yields a narrative plus recommendations); on oracle
failure or malformed response (empty narrative) it returns the
deterministic heuristic narrative with the three fixed generic
recommendations; on oracle success it returns at most the first three of
the oracle's recommendation strings, which may be fewer than three. -/
theorem C6_amended (oracle : Option (String × List String)) (summary : Snapshot)
    (filters : Filter) :
    ((_ai_insights oracle summary filters).2).length ≤ 3 ∧
    _GENERIC_ACTIONS.length = 3 ∧
    (oracleFailedOrMalformed oracle →
      _ai_insights oracle summary filters =
        (heuristicInsight summary (filters.filter (fun kv => kv.2.truthy)),
         _GENERIC_ACTIONS)) := by
  refine ⟨?_, rfl, ?_⟩
  · rcases oracle with _ | ⟨i, a⟩
    · simp [_ai_insights, _GENERIC_ACTIONS]
    · by_cases hi : i ≠ ""
      · simp only [_ai_insights]
        rw [if_pos hi]
        exact le_trans (le_of_eq (List.length_take 3 a)) (min_le_left 3 a.length)
      · simp [_ai_insights, hi, _GENERIC_ACTIONS]
  · intro h
    rcases h with rfl | ⟨acts, rfl⟩
    · rfl
    · simp [_ai_insights]

/-- C6 amended witness at a concrete failing oracle and the empty
snapshot. -/
theorem C6_amended_witness :
    _ai_insights Option.none (compute_analytics_summary [] Option.none) [] =
      (heuristicInsight (compute_analytics_summary [] Option.none) [],
       _GENERIC_ACTIONS) :=
  (C6_amended Option.none (compute_analytics_summary [] Option.none) []).2.2 (Or.inl rfl)

/-- C10: `_build_match` silently drops every constraint whose value is
falsy (empty string, `None`, `0`), so a filter constraining a dimension
to such a value behaves exactly like a filter without that constraint,
and a filter consisting only of an empty-string constraint matches every
record. -/
theorem C10_falsy_constraints_dropped (store : List Review) (fs : Filter) (k : String)
    (v : PyVal) (hv : v.truthy = false) :
    compute_analytics_summary store (some ((k, v) :: fs)) =
      compute_analytics_summary store (some fs) ∧
    ∀ r : Review, matchesQuery r (_build_match (some [(k, v)])) = true := by
  have hb : _build_match (some ((k, v) :: fs)) = _build_match (some fs) := by
    simp [_build_match, List.filter_cons, hv]
  refine ⟨?_, ?_⟩
  · unfold compute_analytics_summary
    rw [hb]
  · intro r
    have hb2 : _build_match (some [(k, v)]) = [] := by
      simp [_build_match, List.filter_cons, hv]
    rw [hb2]; rfl

/-- C10 witness: constraining the website to the empty string leaves the
snapshot of a concrete one-record store unchanged. -/
theorem C10_witness :
    compute_analytics_summary [rOther] (some [("website", PyVal.str "")]) =
      compute_analytics_summary [rOther] (some ([] : Filter)) :=
  (C10_falsy_constraints_dropped [rOther] [] "website" (PyVal.str "") rfl).1

/-! ### Key-set lemmas for the classification-counts dictionary -/

theorem mem_keys_dictSet {d : CountsDict} {k a : PyVal} {v : Nat} :
    a ∈ (dictSet d k v).map Prod.fst ↔ a ∈ d.map Prod.fst ∨ a = k := by
  induction d with
  | nil => simp [dictSet]
  | cons kv rest ih =>
    rw [dictSet]
    by_cases hk : (kv.1 == k) = true
    · have hk' : kv.1 = k := eq_of_beq hk
      rw [if_pos hk]
      simp only [List.map_cons, List.mem_cons, hk']
      tauto
    · rw [if_neg hk]
      simp only [List.map_cons, List.mem_cons, ih]
      tauto

theorem mem_keys_foldl_applyClassDoc (gs : List GroupDoc) (d : CountsDict) (a : PyVal) :
    a ∈ ((gs.foldl applyClassDoc d).map Prod.fst) ↔
      a ∈ d.map Prod.fst ∨ ∃ g ∈ gs, classificationKey g.gid = a := by
  induction gs generalizing d with
  | nil => simp
  | cons g gs ih =>
    rw [List.foldl_cons, ih]
    simp only [applyClassDoc, mem_keys_dictSet, List.mem_cons]
    constructor
    · rintro (⟨h | h⟩ | ⟨g', hg', h⟩)
      · exact Or.inl h
      · exact Or.inr ⟨g, Or.inl rfl, h.symm⟩
      · exact Or.inr ⟨g', Or.inr hg', h⟩
    · rintro (h | ⟨g', (rfl | hg'), h⟩)
      · exact Or.inl (Or.inl h)
      · exact Or.inl (Or.inr h.symm)
      · exact Or.inr ⟨g', hg', h⟩

theorem mem_foldl_distinct (f : Review → PyVal) (recs : List Review) (acc : List PyVal)
    (v : PyVal)
    (h : v ∈ recs.foldl
        (fun acc r => if acc.contains (f r) then acc else acc ++ [f r]) acc) :
    v ∈ acc ∨ ∃ r ∈ recs, f r = v := by
  induction recs generalizing acc with
  | nil => exact Or.inl h
  | cons r rs ih =>
    rw [List.foldl_cons] at h
    rcases ih _ h with hv | ⟨r', hr', hfr⟩
    · by_cases hc : acc.contains (f r) = true
      · rw [if_pos hc] at hv
        exact Or.inl hv
      · rw [if_neg hc] at hv
        rcases List.mem_append.mp hv with hv | hv
        · exact Or.inl hv
        · exact Or.inr ⟨r, List.mem_cons_self r rs, (List.mem_singleton.mp hv).symm⟩
    · exact Or.inr ⟨r', List.mem_cons_of_mem r hr', hfr⟩

theorem mem_distinctVals {recs : List Review} {f : Review → PyVal} {v : PyVal}
    (h : v ∈ distinctVals recs f) : ∃ r ∈ recs, f r = v :=
  (mem_foldl_distinct f recs [] v h).resolve_left (by simp)

theorem mem_groupBy {recs : List Review} {f : Review → PyVal} {g : GroupDoc}
    (h : g ∈ groupBy recs f) : ∃ r ∈ recs, f r = g.gid := by
  rcases List.mem_map.mp h with ⟨v, hv, rfl⟩
  exact mem_distinctVals hv

/-- C2 amended: the snapshot's `classification_counts` always contains at
least the five known labels (they are initialised to zero and never
removed), but not exactly them: a matching record with a falsy
(missing/empty) classification is folded onto the key `"other"`, while
an unknown truthy label becomes an additional key of its own instead of
being counted under `"other"`.  Every key is therefore one of the five
known labels or the truthy classification value of a matching record. -/
theorem C2_amended (store : List Review) (fo : Option Filter) :
    (∀ k ∈ _CLASSIFICATION_KEYS,
        PyVal.str k
          ∈ ((compute_analytics_summary store fo).classification_counts.map Prod.fst)) ∧
    (∀ a ∈ ((compute_analytics_summary store fo).classification_counts.map Prod.fst),
        a ∈ initCounts.map Prod.fst ∨
          (a.truthy = true ∧ ∃ r ∈ matchingRecords store fo, r.classification = a)) := by
  have hcc : (compute_analytics_summary store fo).classification_counts
      = classificationCounts (matchingRecords store fo) := rfl
  constructor
  · intro k hk
    rw [hcc]
    unfold classificationCounts
    rw [mem_keys_foldl_applyClassDoc]
    exact Or.inl (List.mem_map.mpr ⟨(PyVal.str k, 0),
      List.mem_map.mpr ⟨k, hk, rfl⟩, rfl⟩)
  · intro a ha
    rw [hcc] at ha
    unfold classificationCounts at ha
    rw [mem_keys_foldl_applyClassDoc] at ha
    rcases ha with h | ⟨g, hg, hck⟩
    · exact Or.inl h
    · unfold classificationKey at hck
      by_cases ht : g.gid.truthy = true
      · rw [if_pos ht] at hck
        subst hck
        exact Or.inr ⟨ht, mem_groupBy hg⟩
      · rw [if_neg ht] at hck
        subst hck
        exact Or.inl (by simp [initCounts, _CLASSIFICATION_KEYS])

/-- C2 amended witness: on the concrete one-record store with the unknown
label `"spam"`, the key `"other"` is still present among the
classification-count keys. -/
theorem C2_amended_witness :
    PyVal.str "other"
      ∈ ((compute_analytics_summary [rSpam] Option.none).classification_counts.map Prod.fst) :=
  (C2_amended [rSpam] Option.none).1 "other" (by decide)

/-! ### Insight cache behaviour -/

theorem cacheLookup_dictSetStr_self (d : List (String × Payload)) (k : String) (v : Payload) :
    cacheLookup (dictSetStr d k v) k = some v := by
  induction d with
  | nil => simp [dictSetStr, cacheLookup]
  | cons kv rest ih =>
    rw [dictSetStr]
    by_cases hk : (kv.1 == k) = true
    · rw [if_pos hk]
      simp [cacheLookup]
    · rw [if_neg hk]
      simp only [cacheLookup, List.find?]
      rw [Bool.of_not_eq_true hk]
      simpa [cacheLookup] using ih

theorem generate_insights_hit (store : List Review)
    (oracle : Option (String × List String)) (now : String) (fo : Option Filter)
    (st : InsightState) (p : Payload)
    (hc : cacheLookup st.cache (_filter_key (orEmpty fo)) = some p)
    (hts : p.source_last_review_at = _latest_review_ts store) :
    generate_insights store oracle now fo st = (p, st) := by
  simp only [generate_insights, hc]
  rw [if_pos hts]

theorem generate_insights_stale (store : List Review)
    (oracle : Option (String × List String)) (now : String) (fo : Option Filter)
    (st : InsightState) (p : Payload)
    (hc : cacheLookup st.cache (_filter_key (orEmpty fo)) = some p)
    (hts : p.source_last_review_at ≠ _latest_review_ts store) :
    generate_insights store oracle now fo st =
      generateMiss store oracle now (orEmpty fo) st (_filter_key (orEmpty fo))
        (_latest_review_ts store) := by
  simp only [generate_insights, hc]
  rw [if_neg hts]

theorem generate_insights_cold (store : List Review)
    (oracle : Option (String × List String)) (now : String) (fo : Option Filter)
    (st : InsightState)
    (hc : cacheLookup st.cache (_filter_key (orEmpty fo)) = Option.none) :
    generate_insights store oracle now fo st =
      generateMiss store oracle now (orEmpty fo) st (_filter_key (orEmpty fo))
        (_latest_review_ts store) := by
  simp only [generate_insights, hc]

theorem generate_insights_cached (store : List Review)
    (oracle : Option (String × List String)) (now : String) (fo : Option Filter)
    (st : InsightState) :
    cacheLookup (generate_insights store oracle now fo st).2.cache
        (_filter_key (orEmpty fo)) = some (generate_insights store oracle now fo st).1 ∧
    (generate_insights store oracle now fo st).1.source_last_review_at
      = _latest_review_ts store := by
  cases hc : cacheLookup st.cache (_filter_key (orEmpty fo)) with
  | some p =>
    by_cases hts : p.source_last_review_at = _latest_review_ts store
    · rw [generate_insights_hit store oracle now fo st p hc hts]
      exact ⟨hc, hts⟩
    · rw [generate_insights_stale store oracle now fo st p hc hts]
      exact ⟨cacheLookup_dictSetStr_self _ _ _, rfl⟩
  | none =>
    rw [generate_insights_cold store oracle now fo st hc]
    exact ⟨cacheLookup_dictSetStr_self _ _ _, rfl⟩

/-- C4: calling `generate_insights` twice for the same filter with no
record added in between returns the cached payload unchanged on the
second call and leaves the state untouched: the cache, the oracle-call
counter and the snapshot-recomputation counter are exactly those left by
the first call, so the second call performs no oracle invocation and no
snapshot recomputation. -/
theorem C4_insights_idempotent_no_writes (store : List Review)
    (o1 o2 : Option (String × List String)) (n1 n2 : String) (fo : Option Filter)
    (st : InsightState) :
    generate_insights store o2 n2 fo (generate_insights store o1 n1 fo st).2 =
      ((generate_insights store o1 n1 fo st).1,
       (generate_insights store o1 n1 fo st).2) := by
  obtain ⟨hc, hts⟩ := generate_insights_cached store o1 n1 fo st
  exact generate_insights_hit store o2 n2 fo _ _ hc hts

/-- C5: after one record is appended anywhere in the store, changing the
store-wide latest creation timestamp, the next `generate_insights` call
for any filter recomputes: the oracle-attempt and snapshot-recomputation
counters both increase by one and a new payload stamped with the new
freshness token is stored under the filter's signature — even though no
hypothesis relates the appended record to the filter. -/
theorem C5_write_invalidates (store : List Review) (r : Review)
    (o1 o2 : Option (String × List String)) (n1 n2 : String) (fo : Option Filter)
    (st : InsightState)
    (hts : _latest_review_ts (store ++ [r]) ≠ _latest_review_ts store) :
    (generate_insights (store ++ [r]) o2 n2 fo
        (generate_insights store o1 n1 fo st).2).2.oracleCalls
      = (generate_insights store o1 n1 fo st).2.oracleCalls + 1 ∧
    (generate_insights (store ++ [r]) o2 n2 fo
        (generate_insights store o1 n1 fo st).2).2.computeCalls
      = (generate_insights store o1 n1 fo st).2.computeCalls + 1 ∧
    (generate_insights (store ++ [r]) o2 n2 fo
        (generate_insights store o1 n1 fo st).2).1.source_last_review_at
      = _latest_review_ts (store ++ [r]) ∧
    cacheLookup (generate_insights (store ++ [r]) o2 n2 fo
        (generate_insights store o1 n1 fo st).2).2.cache (_filter_key (orEmpty fo))
      = some (generate_insights (store ++ [r]) o2 n2 fo
          (generate_insights store o1 n1 fo st).2).1 := by
  obtain ⟨hc, hsrc⟩ := generate_insights_cached store o1 n1 fo st
  have hne : (generate_insights store o1 n1 fo st).1.source_last_review_at
      ≠ _latest_review_ts (store ++ [r]) := by
    rw [hsrc]
    exact Ne.symm hts
  rw [generate_insights_stale (store ++ [r]) o2 n2 fo _ _ hc hne]
  exact ⟨rfl, rfl, rfl, cacheLookup_dictSetStr_self _ _ _⟩

/-- C5 witness: starting from the empty store and an empty cache, adding
one concrete record makes the second call recompute (its oracle-attempt
counter is one more than after the first call). -/
theorem C5_write_invalidates_witness :
    (generate_insights ([] ++ [rNone]) Option.none "t2" Option.none
        (generate_insights [] Option.none "t1" Option.none ⟨[], 0, 0⟩).2).2.oracleCalls
      = (generate_insights [] Option.none "t1" Option.none ⟨[], 0, 0⟩).2.oracleCalls + 1 :=
  (C5_write_invalidates [] rNone Option.none Option.none "t1" "t2" Option.none
    ⟨[], 0, 0⟩ (by decide)).1

/-! ### Broadcast fan-out -/

theorem broadcastPass_eq (sendOk : WS → Bool) (s : Snapshot) (l : List WS) :
    broadcastPass sendOk s l =
      ((l.filter (fun w => sendOk w)).map (fun w => (w, s)),
       l.filter (fun w => !(sendOk w))) := by
  induction l with
  | nil => rfl
  | cons w ws ih =>
    rw [broadcastPass, ih]
    by_cases hw : sendOk w = true
    · simp [List.filter_cons, hw]
    · simp [List.filter_cons, Bool.of_not_eq_true hw]

theorem removeAll_eq (dead conns : List WS) :
    removeAll conns dead = conns.filter (fun x => decide (x ∉ dead)) := by
  induction dead generalizing conns with
  | nil => simp [removeAll]
  | cons d ds ih =>
    rw [removeAll, List.foldl_cons]
    have hstep : ds.foldl (fun acc w => acc.filter (fun x => !(x == w)))
        (conns.filter (fun x => !(x == d))) =
        removeAll (conns.filter (fun x => !(x == d))) ds := rfl
    rw [hstep, ih, List.filter_filter]
    refine List.filter_congr ?_
    intro x _
    by_cases h1 : x = d <;> by_cases h2 : x ∈ ds <;> simp [h1, h2]

/-- C7: one `broadcast_analytics_update` run computes a single unfiltered
snapshot; every registered subscriber whose send succeeds receives that
snapshot exactly once (a failing subscriber does not prevent delivery to
the remaining ones), and afterwards exactly the subscribers whose send
failed have been removed from the registry while all others remain, in
order. -/
theorem C7_broadcast_fanout (store : List Review) (sendOk : WS → Bool) (conns : List WS)
    (hnd : conns.Nodup) :
    (broadcast_analytics_update store sendOk conns).registry
      = conns.filter (fun w => sendOk w) ∧
    (broadcast_analytics_update store sendOk conns).delivered
      = (conns.filter (fun w => sendOk w)).map
          (fun w => (w, compute_analytics_summary store Option.none)) ∧
    ∀ w ∈ conns, sendOk w = true →
      ((broadcast_analytics_update store sendOk conns).delivered.map Prod.fst).count w
        = 1 := by
  have hpass := broadcastPass_eq sendOk (compute_analytics_summary store Option.none) conns
  have hreg : (broadcast_analytics_update store sendOk conns).registry
      = conns.filter (fun w => sendOk w) := by
    simp only [broadcast_analytics_update]
    rw [hpass]
    by_cases he : (conns.filter (fun w => !(sendOk w))).isEmpty = true
    · rw [if_pos he]
      rw [List.isEmpty_iff] at he
      have hall := List.filter_eq_nil_iff.mp he
      refine (List.filter_eq_self.mpr ?_).symm
      intro w hw
      have := hall w hw
      simpa using this
    · rw [if_neg he, removeAll_eq]
      refine List.filter_congr ?_
      intro x hx
      by_cases hs : sendOk x = true
      · have hnotin : x ∉ conns.filter (fun w => !(sendOk w)) := by
          intro hmem
          have := (List.mem_filter.mp hmem).2
          simp [hs] at this
        simp [hnotin, hs]
      · have hin : x ∈ conns.filter (fun w => !(sendOk w)) :=
          List.mem_filter.mpr ⟨hx, by simp [Bool.of_not_eq_true hs]⟩
        simp [hin, Bool.of_not_eq_true hs]
  have hdel : (broadcast_analytics_update store sendOk conns).delivered
      = (conns.filter (fun w => sendOk w)).map
          (fun w => (w, compute_analytics_summary store Option.none)) := by
    simp only [broadcast_analytics_update]
    rw [hpass]
  refine ⟨hreg, hdel, ?_⟩
  intro w hw hsw
  rw [hdel, List.map_map]
  have hmapid : ((conns.filter (fun w => sendOk w)).map
      (Prod.fst ∘ fun w => (w, compute_analytics_summary store Option.none)))
      = conns.filter (fun w => sendOk w) := List.map_id' _
  rw [hmapid]
  exact List.count_eq_one_of_mem (hnd.filter _) (List.mem_filter.mpr ⟨hw, hsw⟩)

/-- C7 witness: with registered subscribers 1, 2, 3 where subscriber 2's
send always fails, after the broadcast exactly subscribers 1 and 3 remain
registered. -/
theorem C7_broadcast_fanout_witness :
    (broadcast_analytics_update [] (fun w => !(w == 2)) [1, 2, 3]).registry = [1, 3] := by
  rw [(C7_broadcast_fanout [] (fun w => !(w == 2)) [1, 2, 3] (by decide)).1]
  decide

/-! ### Injectivity range of the cache signature -/

theorem sep_split :
    ∀ (a b a2 b2 : List Char), ('|' : Char) ∉ a → ('|' : Char) ∉ b →
      a ++ '|' :: a2 = b ++ '|' :: b2 → a = b ∧ a2 = b2 := by
  intro a
  induction a with
  | nil =>
    intro b a2 b2 _ hb h
    cases b with
    | nil => simpa using h
    | cons c bs =>
      simp only [List.nil_append, List.cons_append, List.cons.injEq] at h
      exact absurd (h.1 ▸ List.mem_cons_self c bs) hb
  | cons c as ih =>
    intro b a2 b2 ha hb h
    cases b with
    | nil =>
      simp only [List.nil_append, List.cons_append, List.cons.injEq] at h
      exact absurd (h.1 ▸ List.mem_cons_self c as) ha
    | cons d bs =>
      simp only [List.cons_append, List.cons.injEq] at h
      rcases h with ⟨rfl, h2⟩
      have ha' : ('|' : Char) ∉ as := fun hm => ha (List.mem_cons_of_mem _ hm)
      have hb' : ('|' : Char) ∉ bs := fun hm => hb (List.mem_cons_of_mem _ hm)
      obtain ⟨h3, h4⟩ := ih bs a2 b2 ha' hb' h2
      exact ⟨by rw [h3], h4⟩

theorem _filter_key_data (F : Filter) :
    (_filter_key F).data =
      (extracted F "website").data ++ '|' ::
        ((extracted F "product").data ++ '|' :: (extracted F "classification").data) := by
  show (extracted F "website" ++ "|" ++ extracted F "product" ++ "|"
      ++ extracted F "classification").data = _
  simp [String.data_append]

/-- C9 amended: the cache signature `_filter_key` determines exactly the
triple of extracted constraint strings (website, product, classification,
a missing or falsy-stringified constraint reading as its `str()` image),
provided the website and product values do not contain the separator
character `"|"`.  It is not injective on whole constraint sets: values
containing `"|"` collide, constraints outside the three dimensions are
ignored, and an absent constraint collides with an empty-string one. -/
theorem C9_amended (F G : Filter)
    (hFw : pipeFree (extracted F "website")) (hFp : pipeFree (extracted F "product"))
    (hGw : pipeFree (extracted G "website")) (hGp : pipeFree (extracted G "product")) :
    _filter_key F = _filter_key G ↔
      (extracted F "website" = extracted G "website" ∧
       extracted F "product" = extracted G "product" ∧
       extracted F "classification" = extracted G "classification") := by
  constructor
  · intro h
    have hd := congrArg String.data h
    rw [_filter_key_data, _filter_key_data] at hd
    obtain ⟨h1, h2⟩ := sep_split _ _ _ _ hFw hGw hd
    obtain ⟨h3, h4⟩ := sep_split _ _ _ _ hFp hGp h2
    exact ⟨String.ext h1, String.ext h3, String.ext h4⟩
  · rintro ⟨h1, h2, h3⟩
    show extracted F "website" ++ "|" ++ extracted F "product" ++ "|"
        ++ extracted F "classification" = _
    rw [h1, h2, h3]
    rfl

/-- C9 amended witness: two concrete filters with pipe-free values and
identical constraints on the three dimensions (one carrying an extra,
ignored key) have equal signatures. -/
theorem C9_amended_witness :
    _filter_key [("website", PyVal.str "w1")]
      = _filter_key [("website", PyVal.str "w1"), ("rating", PyVal.int 5)] :=
  (C9_amended [("website", PyVal.str "w1")]
      [("website", PyVal.str "w1"), ("rating", PyVal.int 5)]
      (by decide) (by decide) (by decide) (by decide)).mpr ⟨rfl, rfl, rfl⟩

end ReviewBackend
